import Mathlib

/-!
Verification of the csv-worker repository: a shallow embedding of the
worker's data model and operations (src/models/file.py, src/models/jobs.py,
src/services/db.py, src/services/jobs.py, src/main.py) together with
theorems settling the specification claims.

Bytes are modelled as `Nat`, Python strings as Lean `String`, Python `None`
as `Option.none`.  Python truthiness on the optional configuration fields
(`if config and config.field`) is embedded explicitly: an empty string,
empty list and the integer zero are falsy.
-/

/-- Embedding of Python `str.strip` whitespace test (ASCII whitespace:
space, tab, newline, carriage return, vertical tab, form feed). -/
def pyIsSpace (c : Char) : Bool :=
  c = ' ' || c = '\t' || c = '\n' || c = '\r' || c = '\x0b' || c = '\x0c'

/-- Embedding of Python `str.strip()` (no argument): drop whitespace from
both ends of the string. -/
def pyStrip (s : String) : String :=
  ⟨((s.data.dropWhile pyIsSpace).reverse.dropWhile pyIsSpace).reverse⟩

/-- Embedding of Python `str.lower()` for the ASCII range (the dtype names
and config fields handled by the worker are ASCII). -/
def pyLower (s : String) : String :=
  ⟨s.data.map Char.toLower⟩

def isAsciiDigit (c : Char) : Bool := '0' ≤ c && c ≤ '9'

def digitsVal (ds : List Char) : Nat :=
  ds.foldl (fun acc c => acc * 10 + (c.toNat - 48)) 0

/-- Embedding of Python `int(s)` on a `str` argument: surrounding
whitespace is ignored, an optional single sign is allowed, and the rest
must be one or more decimal digits; any other shape raises `ValueError`,
modelled as `none`.  (Digit-group underscores are not used by this
worker's inputs and are not modelled.) -/
def pyInt (s : String) : Option Int :=
  match (pyStrip s).data with
  | [] => none
  | '+' :: ds =>
      if ds ≠ [] ∧ ds.all isAsciiDigit then some (digitsVal ds) else none
  | '-' :: ds =>
      if ds ≠ [] ∧ ds.all isAsciiDigit then some (-(digitsVal ds : Int)) else none
  | ds =>
      if ds.all isAsciiDigit then some (digitsVal ds) else none

/-- src/models/jobs.py `JobConfig`: per-job CSV processing configuration,
every field optional. -/
structure JobConfig where
  delimitador : Option String := none
  size : Option String := none
  campos : Option (List String) := none
  reglas : Option (List (String × String)) := none
  codec : Option String := none
  skiprows : Option Int := none
  merror : Option String := none
  codigo : Option String := none
  type_head : Option String := none
deriving DecidableEq, Repr

/-- src/models/jobs.py `JobResponse`: a claimed job. -/
structure JobResponse where
  id : String
  file_path : String
  collection_name : String
  client_id : Int
  period : String
  config : JobConfig
deriving DecidableEq, Repr

/-- The subset of src/config/settings.py `Settings` that the job pipeline
reads. -/
structure Settings where
  batch_size : Int := 50000
  block_size_bytes : Int := 16 * 1024 * 1024
  heartbeat_interval : Int := 10
deriving DecidableEq, Repr

/-! ## Configuration resolution (src/services/db.py lines 58-82)

`process_csv_stream_to_mongo` resolves each parsing parameter from the
optional `config` argument with Python truthiness:
`delimiter = config.delimitador if config and config.delimitador else ","`
and so on. -/

def resolvedDelimiter (config : Option JobConfig) : String :=
  match config with
  | some c => match c.delimitador with
    | some s => if s = "" then "," else s
    | none => ","
  | none => ","

def resolvedEncoding (config : Option JobConfig) : String :=
  match config with
  | some c => match c.codec with
    | some s => if s = "" then "utf-8" else s
    | none => "utf-8"
  | none => "utf-8"

def resolvedSkipRows (config : Option JobConfig) : Int :=
  match config with
  | some c => match c.skiprows with
    | some n => n
    | none => 0
  | none => 0

def resolvedColumnNames (config : Option JobConfig) : Option (List String) :=
  match config with
  | some c => match c.campos with
    | some l => if l = [] then none else some l
    | none => none
  | none => none

def resolvedEncodingErrors (config : Option JobConfig) : String :=
  match config with
  | some c => match c.merror with
    | some s => if s = "" then "strict" else s
    | none => "strict"
  | none => "strict"

/-- src/services/db.py lines 65-72: the chunk size starts at the
`batch_size` argument; when `config.size` is truthy, `int(config.size)`
replaces it, and a `ValueError` falls back to `batch_size` with a logged
warning (second component: whether the warning was logged). -/
def effectiveChunkSize (batch_size : Int) (config : Option JobConfig) :
    Int × Bool :=
  match config with
  | none => (batch_size, false)
  | some c => match c.size with
    | none => (batch_size, false)
    | some s =>
      if s = "" then (batch_size, false)
      else match pyInt s with
        | some n => (n, false)
        | none => (batch_size, true)

/-- src/services/db.py line 82:
`has_header = skip_rows == 0 and column_names is None`. -/
def hasHeader (config : Option JobConfig) : Bool :=
  decide (resolvedSkipRows config = 0) && (resolvedColumnNames config).isNone

/-! ## Chunk Stream Adapter (src/models/file.py `ChunkStream`)

State: the pending chunk iterator (a finite list of byte chunks) and the
internal `_buffer`.  Bytes are `Nat`. -/

structure ChunkStream where
  chunks : List (List Nat)
  buffer : List Nat
deriving DecidableEq, Repr

/-- The `while len(self._buffer) == 0: self._buffer = next(self._chunks)`
loop of `readinto`, run on a buffer that is already empty: pull chunks,
skipping empty ones, until a non-empty chunk is found (`some`) or the
iterator raises `StopIteration` (`none`). -/
def fillFromChunks : List (List Nat) → Option (List Nat × List (List Nat))
  | [] => none
  | c :: rest => if c = [] then fillFromChunks rest else some (c, rest)

/-- The refill loop of `readinto` starting from the current buffer: a
non-empty buffer is kept as is, an empty one is refilled from the chunk
iterator. -/
def fillBuffer (buf : List Nat) (cs : List (List Nat)) :
    Option (List Nat × List (List Nat)) :=
  if buf = [] then fillFromChunks cs else some (buf, cs)

/-- src/models/file.py `ChunkStream.readinto`, with `k` the size of the
destination buffer `b`: on `StopIteration` with an empty buffer it
returns 0 bytes (EOF, first component `[]`); otherwise it returns
`n = min(len(b), len(buffer))` bytes from the front of the buffer and
keeps the rest buffered. -/
def ChunkStream.readinto (k : Nat) (s : ChunkStream) :
    List Nat × ChunkStream :=
  match fillBuffer s.buffer s.chunks with
  | none => ([], ⟨[], []⟩)
  | some (buf, cs) =>
    let n := min k buf.length
    (buf.take n, ⟨cs, buf.drop n⟩)

/-- The bytes still to be delivered by the adapter: the internal buffer
followed by the unconsumed chunks. -/
def ChunkStream.remaining (s : ChunkStream) : List Nat :=
  s.buffer ++ s.chunks.flatten

/-- Reading the adapter with a given sequence of read sizes, concatenating
everything returned.  (A read made after EOF returns `[]`, matching the
Python object.) -/
def readAll (sizes : List Nat) (s : ChunkStream) : List Nat :=
  match sizes with
  | [] => []
  | k :: ks =>
    let r := ChunkStream.readinto k s
    r.1 ++ readAll ks r.2

/-! ## Type Mapping Table
(src/services/db.py `_convert_pandas_dtypes_to_polars`) -/

inductive TimeUnit | ms | ns
deriving DecidableEq, Repr

/-- The internal (Polars) column types the worker's table can produce. -/
inductive PolarsDType
  | utf8 | int64 | int32 | int16 | int8
  | float64 | float32 | boolean
  | datetime (tu : TimeUnit)
deriving DecidableEq, Repr

/-- The `type_mapping` dict literal of
`_convert_pandas_dtypes_to_polars`, in source order. -/
def type_mapping : List (String × PolarsDType) :=
  [("str", .utf8), ("string", .utf8), ("object", .utf8),
   ("int", .int64), ("int64", .int64), ("Int64", .int64),
   ("int32", .int32), ("Int32", .int32),
   ("int16", .int16), ("Int16", .int16),
   ("int8", .int8), ("Int8", .int8),
   ("float", .float64), ("float64", .float64), ("float32", .float32),
   ("bool", .boolean), ("boolean", .boolean),
   ("datetime64", .datetime .ms), ("datetime64[ns]", .datetime .ns)]

/-- The per-entry lookup performed by the loop body of
`_convert_pandas_dtypes_to_polars`: first the dtype string lowered and
stripped (`dtype_str.lower().strip()`), then, failing that, the raw
dtype string; an unrecognized name yields `none` (the column is simply
omitted from the overrides). -/
def mapDtype (dtype_str : String) : Option PolarsDType :=
  match type_mapping.lookup (pyStrip (pyLower dtype_str)) with
  | some t => some t
  | none => type_mapping.lookup dtype_str

/-- src/services/db.py `_convert_pandas_dtypes_to_polars`: builds the
Polars schema-override association list from the job's `reglas`,
skipping unrecognized dtype names. -/
def _convert_pandas_dtypes_to_polars
    (pandas_dtypes : List (String × String)) :
    List (String × PolarsDType) :=
  pandas_dtypes.foldl
    (fun result p =>
      match mapDtype p.2 with
      | some t => result ++ [(p.1, t)]
      | none => result)
    []

/-! ## Batched Loader enrichment (src/services/db.py lines 106-118)

In the batch loop, `pl.lit(client_id).alias("ctr")` is appended when
`client_id is not None`, then `crx` with the period coerced via
`int(period)` when numeric, else the original string.  A document is an
ordered association list from column name to value. -/

inductive DocValue
  | str (s : String)
  | int (n : Int)
deriving DecidableEq, Repr

/-- The per-document effect of the metadata block of
`process_csv_stream_to_mongo`: add `ctr` when `client_id` is present and
`crx` when `period` is present (coerced to an integer when numeric). -/
def enrichDoc (client_id : Option Int) (period : Option String)
    (doc : List (String × DocValue)) : List (String × DocValue) :=
  let doc1 := match client_id with
    | some cid => doc ++ [("ctr", DocValue.int cid)]
    | none => doc
  match period with
  | some p =>
    match pyInt p with
    | some n => doc1 ++ [("crx", DocValue.int n)]
    | none => doc1 ++ [("crx", DocValue.str p)]
  | none => doc1

/-- The keyword arguments of `process_csv_stream_to_mongo` that govern
enrichment and per-job parsing, as received in a given call. -/
structure CsvCallArgs where
  batch_size : Int
  block_size_bytes : Int
  client_id : Option Int
  period : Option String
  config : Option JobConfig
deriving DecidableEq, Repr

/-- src/services/jobs.py `process_job`, lines 95-103: the call it makes to
`process_csv_stream_to_mongo` passes only `batch_size=settings.batch_size`
and `block_size_bytes=settings.block_size_bytes` (besides the stream,
connection and log arguments); the `client_id`, `period` and `config`
keyword parameters are left at their `None` defaults from the
`process_csv_stream_to_mongo` signature (src/services/db.py lines 32-43).
The job's `client_id`, `period` and `config` fields are not forwarded. -/
def processJobCsvArgs (_job : JobResponse) (settings : Settings) :
    CsvCallArgs :=
  { batch_size := settings.batch_size
    block_size_bytes := settings.block_size_bytes
    client_id := none
    period := none
    config := none }

/-! ## Heartbeat loop (src/services/jobs.py `_heartbeat_loop`,
src/services/api.py `ApiClient.request`)

One iteration issues `client.put(...)`; `ApiClient.request` calls
`resp.raise_for_status()`, so a status >= 400 surfaces as an exception.
An outcome is either a network/HTTP exception or a returned status code.
The loop runs until the stop event is set; a schedule lists the outcomes
of the successive calls made before cancellation is observed. -/

inductive HbCall
  | netError
  | status (code : Nat)
deriving DecidableEq, Repr

/-- `ApiClient.request` as seen by the heartbeat loop:
`raise_for_status()` turns a status >= 400 into a raised exception. -/
def hbRequestResult (c : HbCall) : Except Unit Nat :=
  match c with
  | .netError => .error ()
  | .status code => if 400 ≤ code then .error () else .ok code

/-- The log lines produced by one iteration of `_heartbeat_loop`
(message text elided): an exception is caught and logged
(`"Heartbeat error: ..."`), a returned status other than 200 is logged
(`"Heartbeat failed: ..."`), a 200 logs nothing.  No branch re-raises. -/
def hbIterationLogs (c : HbCall) : List String :=
  match hbRequestResult c with
  | .error _ => ["Heartbeat error"]
  | .ok code => if code = 200 then [] else ["Heartbeat failed"]

/-- `_heartbeat_loop` over a finite schedule of call outcomes (the stop
event is observed set right after the schedule is exhausted): returns the
number of liveness calls made and the concatenated log lines. -/
def heartbeatLoopRun : List HbCall → Nat × List String
  | [] => (0, [])
  | c :: rest =>
    let r := heartbeatLoopRun rest
    (r.1 + 1, hbIterationLogs c ++ r.2)

/-! ## Job acquisition (src/services/jobs.py `get_next_job`) and the
orchestrator loop (src/main.py `main`)

The outcome of `client.get("/jobs/next")` is either a raised network
error or a response with a status code and a body; `none` as body models
a body that `JobResponse.model_validate` rejects (or an empty body). -/

inductive HttpResult
  | netError
  | resp (status : Nat) (body : Option JobResponse)
deriving DecidableEq, Repr

/-- src/services/jobs.py `get_next_job`: a 204 returns `None`; a
validated body returns the job; every exception — network failure, the
`raise_for_status()` of `ApiClient.request` on a status >= 400, or a
validation error on the body — is caught, logged and turned into
`None`. -/
def get_next_job (r : HttpResult) : Option JobResponse :=
  match r with
  | .netError => none
  | .resp status body =>
    if 400 ≤ status then none
    else if status = 204 then none
    else match body with
      | some j => some j
      | none => none

/-- A fetch outcome that is a failure (as opposed to an explicit 204 "no
work" signal or a valid job): a network error, an HTTP error status, or a
non-204 success whose body fails validation. -/
def fetchFails (r : HttpResult) : Bool :=
  match r with
  | .netError => true
  | .resp status body =>
    decide (400 ≤ status) || (decide (status ≠ 204) && body.isNone)

/-- src/main.py `main`, the polling loop, driven by the schedule `g` of
fetch outcomes (`g n` is the outcome of poll number `n`, 0-based) and
supplied with enough fuel: each iteration polls once; a job resets the
empty-retry counter; an empty poll increments it and the loop returns
cleanly (`some (polls, sleeps)`) once the counter exceeds
`max_empty_retries`, otherwise it sleeps `sleep_seconds` (a fixed
backoff, counted in `sleeps`) and retries.  `none` means the fuel ran
out before the loop returned. -/
def mainLoopRun (g : Nat → HttpResult) :
    Nat → Nat → Nat → Nat → Nat → Option (Nat × Nat)
  | 0, _, _, _, _ => none
  | fuel + 1, max_empty_retries, empty_retries, polls, sleeps =>
    match get_next_job (g polls) with
    | some _ =>
      mainLoopRun g fuel max_empty_retries 0 (polls + 1) sleeps
    | none =>
      if empty_retries + 1 > max_empty_retries then some (polls + 1, sleeps)
      else mainLoopRun g fuel max_empty_retries (empty_retries + 1)
        (polls + 1) (sleeps + 1)

/-! ## Completion ordering (src/services/jobs.py `process_job`,
src/main.py `main`)

The observable actions of one job iteration, in program order. -/

inductive JobEvent
  | startHeartbeat
  | processCsv
  | markComplete (withError : Bool)
  | setStopEvent
  | joinHeartbeat
deriving DecidableEq, Repr

/-- src/services/jobs.py `process_job`: runs the CSV pipeline, then calls
`mark_complete` — with no error message on success, or, in the `except`
branch, with `error_message=str(e)` before re-raising. -/
def process_job_trace (csvFails : Bool) : List JobEvent :=
  [JobEvent.processCsv, JobEvent.markComplete csvFails]

/-- src/main.py `main`, one job iteration: `start_heartbeat`, then
`process_job`, then `stop_event.set()` and `hb_thread.join(timeout=5)` —
on the success path inline after `process_job` returns, on the failure
path in the outer `except` handler before the error is re-raised. -/
def main_job_trace (csvFails : Bool) : List JobEvent :=
  JobEvent.startHeartbeat :: process_job_trace csvFails
    ++ [JobEvent.setStopEvent, JobEvent.joinHeartbeat]

/-! ## Lemmas about the Chunk Stream Adapter -/

theorem fillFromChunks_none :
    ∀ cs, fillFromChunks cs = none → cs.flatten = []
  | [], _ => rfl
  | c :: rest, h => by
    by_cases hc : c = []
    · simp only [fillFromChunks, hc, if_true] at h
      simp [hc, fillFromChunks_none rest h]
    · simp [fillFromChunks, hc] at h

theorem fillFromChunks_some :
    ∀ cs b rest, fillFromChunks cs = some (b, rest) →
      b ≠ [] ∧ cs.flatten = b ++ rest.flatten
  | [], b, rest, h => by simp [fillFromChunks] at h
  | c :: cs, b, rest, h => by
    by_cases hc : c = []
    · simp only [fillFromChunks, hc, if_true] at h
      have := fillFromChunks_some cs b rest h
      simp [hc, this.2, this.1]
    · simp only [fillFromChunks, hc, if_false, Option.some.injEq,
        Prod.mk.injEq] at h
      obtain ⟨h1, h2⟩ := h
      subst h1; subst h2
      exact ⟨hc, by simp⟩

theorem fillBuffer_none (buf : List Nat) (cs : List (List Nat))
    (h : fillBuffer buf cs = none) : buf ++ cs.flatten = [] := by
  by_cases hb : buf = []
  · simp only [fillBuffer, hb, if_true] at h
    simp [hb, fillFromChunks_none cs h]
  · simp [fillBuffer, hb] at h

theorem fillBuffer_some (buf : List Nat) (cs : List (List Nat))
    (b : List Nat) (rest : List (List Nat))
    (h : fillBuffer buf cs = some (b, rest)) :
    b ≠ [] ∧ buf ++ cs.flatten = b ++ rest.flatten := by
  by_cases hb : buf = []
  · simp only [fillBuffer, hb, if_true] at h
    have := fillFromChunks_some cs b rest h
    simp [hb, this.2, this.1]
  · simp only [fillBuffer, hb, if_false, Option.some.injEq,
      Prod.mk.injEq] at h
    obtain ⟨h1, h2⟩ := h
    subst h1; subst h2
    exact ⟨hb, rfl⟩

/-- Each read preserves the total byte sequence: the bytes returned
followed by the bytes still to deliver equal the bytes that were to
deliver before the read. -/
theorem readinto_conservation (k : Nat) (s : ChunkStream) :
    (ChunkStream.readinto k s).1 ++ (ChunkStream.readinto k s).2.remaining
      = s.remaining := by
  unfold ChunkStream.readinto
  cases hf : fillBuffer s.buffer s.chunks with
  | none =>
    have := fillBuffer_none s.buffer s.chunks hf
    simp [ChunkStream.remaining, this]
  | some p =>
    obtain ⟨b, rest⟩ := p
    have := fillBuffer_some s.buffer s.chunks b rest hf
    simp only [ChunkStream.remaining] at *
    simp [← this.2, ← List.append_assoc]

theorem readinto_length (k : Nat) (s : ChunkStream) :
    (ChunkStream.readinto k s).1.length ≤ k := by
  unfold ChunkStream.readinto
  cases hf : fillBuffer s.buffer s.chunks with
  | none => simp
  | some p =>
    obtain ⟨b, rest⟩ := p
    simp only [List.length_take]
    omega

/-- With a positive requested size, a read returns an empty result
exactly when nothing remains: EOF is signalled only once the chunk
source is exhausted and the buffer is empty, never before. -/
theorem readinto_empty_iff (k : Nat) (s : ChunkStream) (hk : 0 < k) :
    (ChunkStream.readinto k s).1 = [] ↔ s.remaining = [] := by
  unfold ChunkStream.readinto
  cases hf : fillBuffer s.buffer s.chunks with
  | none =>
    have := fillBuffer_none s.buffer s.chunks hf
    simp [ChunkStream.remaining, this]
  | some p =>
    obtain ⟨b, rest⟩ := p
    have hb := fillBuffer_some s.buffer s.chunks b rest hf
    have hbne : b.length ≠ 0 := fun hc => hb.1 (List.length_eq_zero.mp hc)
    constructor
    · intro h
      simp only [List.take_eq_nil_iff] at h
      rcases h with h | h
      · omega
      · exact absurd h hb.1
    · intro h
      exfalso
      have : s.remaining = b ++ rest.flatten := by
        simpa [ChunkStream.remaining] using hb.2
      rw [this] at h
      exact hb.1 (List.append_eq_nil.mp h).1

/-- What a read returns is an initial segment of the bytes that remained
before the read. -/
theorem readinto_take (k : Nat) (s : ChunkStream) :
    (ChunkStream.readinto k s).1
      = s.remaining.take (ChunkStream.readinto k s).1.length := by
  have h := readinto_conservation k s
  rw [← h]
  simp [List.take_left]

/-- With positive read sizes, each non-EOF read consumes at least one
byte. -/
theorem readinto_progress (k : Nat) (s : ChunkStream) (hk : 0 < k)
    (hs : s.remaining ≠ []) :
    (ChunkStream.readinto k s).2.remaining.length < s.remaining.length := by
  have hcons := readinto_conservation k s
  have hne : (ChunkStream.readinto k s).1 ≠ [] :=
    fun hc => hs ((readinto_empty_iff k s hk).mp hc)
  have : (ChunkStream.readinto k s).1.length
      + (ChunkStream.readinto k s).2.remaining.length
      = s.remaining.length := by
    rw [← hcons, List.length_append]
  have hpos : 0 < (ChunkStream.readinto k s).1.length :=
    List.length_pos.mpr hne
  omega

/-- Reading to exhaustion with positive sizes returns exactly the bytes
that remained. -/
theorem readAll_exact :
    ∀ (sizes : List Nat) (s : ChunkStream),
      (∀ k ∈ sizes, 0 < k) → s.remaining.length ≤ sizes.length →
      readAll sizes s = s.remaining
  | [], s, _, hlen => by
    simp only [List.length_nil, Nat.le_zero, List.length_eq_zero] at hlen
    simp [readAll, hlen]
  | k :: ks, s, hpos, hlen => by
    have hk : 0 < k := hpos k (List.mem_cons_self k ks)
    by_cases hs : s.remaining = []
    · have h1 : (ChunkStream.readinto k s).1 = [] :=
        (readinto_empty_iff k s hk).mpr hs
      have h2 : (ChunkStream.readinto k s).2.remaining = [] := by
        have := readinto_conservation k s
        rw [h1, hs] at this
        simpa using this
      have := readAll_exact ks (ChunkStream.readinto k s).2
        (fun j hj => hpos j (List.mem_cons_of_mem k hj))
        (by simp [h2])
      simp [readAll, h1, this, h2, hs]
    · have hlt := readinto_progress k s hk hs
      have hlen2 : (ChunkStream.readinto k s).2.remaining.length
          ≤ ks.length := by
        simp only [List.length_cons] at hlen
        omega
      have := readAll_exact ks (ChunkStream.readinto k s).2
        (fun j hj => hpos j (List.mem_cons_of_mem k hj)) hlen2
      simp only [readAll, this]
      exact readinto_conservation k s

/-- C3: For any finite list of byte chunks C (chunks may be empty),
reading the Chunk Stream Adapter to exhaustion with any sequence of
positive read sizes yields exactly the concatenation of C; each read
returns an initial segment of the remaining bytes of size at most the
requested maximum, non-empty unless at EOF; and an empty (EOF) result is
returned exactly when the chunk source is exhausted and the internal
buffer is empty — never before. -/
theorem chunkStream_reads_concatenation
    (C : List (List Nat)) (sizes : List Nat)
    (hpos : ∀ k ∈ sizes, 0 < k) (hlen : C.flatten.length ≤ sizes.length) :
    readAll sizes ⟨C, []⟩ = C.flatten
    ∧ (∀ (s : ChunkStream) (k : Nat), 0 < k →
        (ChunkStream.readinto k s).1
            = s.remaining.take (ChunkStream.readinto k s).1.length
        ∧ (ChunkStream.readinto k s).1.length ≤ k
        ∧ ((ChunkStream.readinto k s).1 = [] ↔ s.remaining = [])) := by
  constructor
  · have : (ChunkStream.remaining ⟨C, []⟩) = C.flatten := by
      simp [ChunkStream.remaining]
    rw [← this]
    exact readAll_exact sizes ⟨C, []⟩ hpos (by rw [this]; exact hlen)
  · intro s k hk
    exact ⟨readinto_take k s, readinto_length k s, readinto_empty_iff k s hk⟩

/-- Witness for C3 at a concrete input: chunks `[[1], [], [2, 3]]`
(one empty chunk included) read with sizes `[1, 2, 3]` yield
`[1, 2, 3]`. -/
theorem chunkStream_reads_concatenation_witness :
    readAll [1, 2, 3] ⟨[[1], [], [2, 3]], []⟩ = [1, 2, 3] := by
  have h := chunkStream_reads_concatenation [[1], [], [2, 3]] [1, 2, 3]
    (by decide) (by decide)
  exact h.1

/-! ## Lemmas about the Type Mapping Table -/

theorem lookup_some_mem {β : Type} :
    ∀ (l : List (String × β)) (key : String) (v : β),
      l.lookup key = some v → ∃ p ∈ l, p.1 = key
  | [], _, _, h => by simp [List.lookup] at h
  | (a, b) :: rest, key, v, h => by
    by_cases hk : key = a
    · exact ⟨(a, b), List.mem_cons_self _ _, hk.symm⟩
    · have hne : (key == a) = false := beq_false_of_ne hk
      simp only [List.lookup, hne] at h
      obtain ⟨p, hp, hpk⟩ := lookup_some_mem rest key v h
      exact ⟨p, List.mem_cons_of_mem _ hp, hpk⟩

/-- Every key of the `type_mapping` dict still hits the table after the
`lower().strip()` normalization the code applies first. -/
theorem type_mapping_keys_normalize :
    ∀ p ∈ type_mapping,
      (type_mapping.lookup (pyStrip (pyLower p.1))).isSome := by decide

/-- The dtype lookup is determined by the lowered, stripped dtype name:
the raw-string fallback branch of `_convert_pandas_dtypes_to_polars` can
never fire on a name whose normalized form misses the table. -/
theorem mapDtype_eq_norm (s : String) :
    mapDtype s = type_mapping.lookup (pyStrip (pyLower s)) := by
  unfold mapDtype
  cases h : type_mapping.lookup (pyStrip (pyLower s)) with
  | some t => rfl
  | none =>
    cases h2 : type_mapping.lookup s with
    | none => rfl
    | some v =>
      exfalso
      obtain ⟨p, hp, hpk⟩ := lookup_some_mem type_mapping s v h2
      have hk := type_mapping_keys_normalize p hp
      rw [hpk, h] at hk
      simp at hk

/-- C9: The external-type-name mapping is a pure function of the
lowered, whitespace-stripped name (hence case-insensitive and trimming),
`mapDtype "Int64" = mapDtype "int64" = mapDtype " INT64 "`, it covers
string/object, signed integers of widths 8/16/32/64, floats 32/64,
boolean, and millisecond/nanosecond datetimes, and it yields `none` for
every unrecognized name such as `"bogus"`, which
`_convert_pandas_dtypes_to_polars` silently omits from the overrides. -/
theorem typeMapping_case_insensitive_total :
    (∀ s t : String, pyStrip (pyLower s) = pyStrip (pyLower t) →
      mapDtype s = mapDtype t)
    ∧ mapDtype "Int64" = some .int64 ∧ mapDtype "int64" = some .int64
    ∧ mapDtype " INT64 " = some .int64
    ∧ mapDtype "str" = some .utf8 ∧ mapDtype "string" = some .utf8
    ∧ mapDtype "object" = some .utf8
    ∧ mapDtype "int8" = some .int8 ∧ mapDtype "int16" = some .int16
    ∧ mapDtype "int32" = some .int32 ∧ mapDtype "int" = some .int64
    ∧ mapDtype "float32" = some .float32
    ∧ mapDtype "float64" = some .float64 ∧ mapDtype "float" = some .float64
    ∧ mapDtype "bool" = some .boolean ∧ mapDtype "boolean" = some .boolean
    ∧ mapDtype "datetime64" = some (.datetime .ms)
    ∧ mapDtype "datetime64[ns]" = some (.datetime .ns)
    ∧ mapDtype "bogus" = none
    ∧ _convert_pandas_dtypes_to_polars [("col", "bogus")] = [] := by
  refine ⟨fun s t h => ?_, ?_⟩
  · rw [mapDtype_eq_norm, mapDtype_eq_norm, h]
  · decide

/-- Witness for C9: the case-insensitivity component applied at the
concrete pair `"Int64"`, `" INT64 "`. -/
theorem typeMapping_case_insensitive_total_witness :
    mapDtype "Int64" = mapDtype " INT64 " :=
  typeMapping_case_insensitive_total.1 "Int64" " INT64 " (by decide)

/-! ## Batch size resolution (C5) and header derivation (C6) -/

/-- Counterexample for C5 as stated: the claim says a configured size of
zero falls back to the worker's default, but `int("0")` parses, so the
code uses 0 as the chunk size (and logs no warning) instead of the
default 5000. -/
theorem effectiveChunkSize_zero_counterexample :
    effectiveChunkSize 5000 (some { size := some "0" }) = (0, false)
    ∧ (0 : Int) ≠ 5000 := by decide

/-- C5 (amended): the effective batch size equals `int(config.size)`
whenever `size` is present, non-empty and parses as an integer — zero and
negative values included — and otherwise (absent, empty, or unparsable)
the worker's default is used, an unparsable non-empty string additionally
producing a warning without aborting the job. -/
theorem effectiveChunkSize_amended (batch_size : Int) (c : JobConfig) :
    (c.size = none →
      effectiveChunkSize batch_size (some c) = (batch_size, false))
    ∧ (c.size = some "" →
      effectiveChunkSize batch_size (some c) = (batch_size, false))
    ∧ (∀ s n, c.size = some s → s ≠ "" → pyInt s = some n →
      effectiveChunkSize batch_size (some c) = (n, false))
    ∧ (∀ s, c.size = some s → s ≠ "" → pyInt s = none →
      effectiveChunkSize batch_size (some c) = (batch_size, true)) := by
  refine ⟨?_, ?_, ?_, ?_⟩
  · intro h; simp [effectiveChunkSize, h]
  · intro h; simp [effectiveChunkSize, h]
  · intro s n hs hne hp; simp [effectiveChunkSize, hs, hne, hp]
  · intro s hs hne hp; simp [effectiveChunkSize, hs, hne, hp]

/-- Witness for C5 (amended), at the configured size `"-3"`: the parsed
value −3 is used verbatim, with no warning. -/
theorem effectiveChunkSize_amended_witness :
    effectiveChunkSize 5000 (some { size := some "-3" }) = (-3, false) :=
  (effectiveChunkSize_amended 5000 { size := some "-3" }).2.2.1
    "-3" (-3) rfl (by decide) (by decide)

/-- C6: the parser treats a header row as present exactly when the
resolved skip-rows count is 0 (the field absent or equal to 0) and no
explicit column names are given (`campos` absent or the empty list); in
every other case the first row after skipping is data, with column names
taken from `campos` when given. -/
theorem hasHeader_iff_no_skip_no_campos (c : JobConfig) :
    (hasHeader (some c) = true ↔
      ((c.skiprows = none ∨ c.skiprows = some 0)
        ∧ (c.campos = none ∨ c.campos = some [])))
    ∧ (∀ l, c.campos = some l → l ≠ [] →
        resolvedColumnNames (some c) = some l) := by
  constructor
  · rcases hs : c.skiprows with _ | n <;>
      rcases hc : c.campos with _ | (_ | ⟨x, xs⟩) <;>
      simp_all [hasHeader, resolvedSkipRows, resolvedColumnNames]
  · intro l hl hlne
    simp [resolvedColumnNames, hl, hlne]

/-- Witness for C6: with `skiprows = 2` and `campos = ["x"]` the header
is absent and the column names come from `campos`. -/
theorem hasHeader_iff_no_skip_no_campos_witness :
    resolvedColumnNames
        (some { skiprows := some 2, campos := some ["x"] }) = some ["x"] :=
  (hasHeader_iff_no_skip_no_campos
      { skiprows := some 2, campos := some ["x"] }).2 ["x"] rfl (by decide)

/-! ## Completion ordering (C4) -/

/-- Counterexample for C4 as stated: on the success path of a processed
job, the completion report (`mark_complete`, called inside `process_job`)
happens strictly before the heartbeat stop (`stop_event.set()` /
`hb_thread.join`, executed in `main` after `process_job` returns), not
after it as the claim requires. -/
theorem heartbeat_stop_order_counterexample :
    JobEvent.markComplete false ∈ main_job_trace false
    ∧ JobEvent.setStopEvent ∈ main_job_trace false
    ∧ ¬ ((main_job_trace false).indexOf JobEvent.setStopEvent
        < (main_job_trace false).indexOf (JobEvent.markComplete false)) := by
  decide

/-- C4 (amended): during job completion, success or failure, completion
is reported to the backend first (carrying the error message if
present), and only afterwards is the Heartbeat Coordinator stopped —
cancellation signaled and then a bounded join performed. -/
theorem completion_reported_before_heartbeat_stop (csvFails : Bool) :
    JobEvent.markComplete csvFails ∈ main_job_trace csvFails
    ∧ JobEvent.setStopEvent ∈ main_job_trace csvFails
    ∧ JobEvent.joinHeartbeat ∈ main_job_trace csvFails
    ∧ (main_job_trace csvFails).indexOf (JobEvent.markComplete csvFails)
        < (main_job_trace csvFails).indexOf JobEvent.setStopEvent
    ∧ (main_job_trace csvFails).indexOf JobEvent.setStopEvent
        < (main_job_trace csvFails).indexOf JobEvent.joinHeartbeat := by
  cases csvFails <;> decide

/-! ## Orchestrator polling loop (C7, C10) -/

/-- When every poll comes back empty, the loop with retry budget `m`,
current counter `r` and enough fuel makes exactly `m - r + 1` more polls
and `m - r` more backoff sleeps, then returns cleanly. -/
theorem mainLoopRun_all_empty (g : Nat → HttpResult)
    (hg : ∀ n, get_next_job (g n) = none) :
    ∀ (fuel m r p s : Nat), r ≤ m → m - r < fuel →
      mainLoopRun g fuel m r p s = some (p + (m - r) + 1, s + (m - r))
  | 0, m, r, _, _, _, hfuel => by omega
  | fuel + 1, m, r, p, s, hrm, hfuel => by
    rw [mainLoopRun, hg p]
    by_cases hdone : r + 1 > m
    · have hr : r = m := by omega
      simp only [hdone, if_true]
      simp [hr]
    · simp only [hdone, if_false]
      have ih := mainLoopRun_all_empty g hg fuel m (r + 1) (p + 1) (s + 1)
        (by omega) (by omega)
      rw [ih]
      simp only [Option.some.injEq, Prod.mk.injEq]
      omega

/-- C7: if every poll for work returns the explicit "no job" signal (an
HTTP 204), the orchestrator's main loop performs exactly
`max_empty_retries + 1` poll attempts with a fixed backoff sleep between
consecutive attempts (`max_empty_retries` sleeps in total), and then
returns cleanly. -/
theorem orchestrator_empty_queue_clean_exit (m : Nat) (g : Nat → HttpResult)
    (hg : ∀ n, g n = HttpResult.resp 204 none) :
    mainLoopRun g (m + 1) m 0 0 0 = some (m + 1, m) := by
  have hnone : ∀ n, get_next_job (g n) = none := by
    intro n; rw [hg n]; rfl
  have h := mainLoopRun_all_empty g hnone (m + 1) m 0 0 0
    (Nat.zero_le m) (by omega)
  simpa using h

/-- Witness for C7 at the source's constants (`max_empty_retries = 2` in
src/main.py): three polls, two sleeps, clean exit. -/
theorem orchestrator_empty_queue_clean_exit_witness :
    mainLoopRun (fun _ => HttpResult.resp 204 none) 3 2 0 0 0
      = some (3, 2) :=
  orchestrator_empty_queue_clean_exit 2 (fun _ => HttpResult.resp 204 none)
    (fun _ => rfl)

/-- C10: every failing fetch — a raised network error, a non-2xx HTTP
status (raised by `raise_for_status`), or a malformed response body — is
swallowed by `get_next_job` into the same `None` as an explicit 204, so
the orchestrator cannot distinguish fetch errors from an empty queue: an
all-failing schedule increments the empty-retry counter each poll and
ends in the same clean exit after `max_empty_retries + 1` polls. -/
theorem fetch_errors_indistinguishable_from_empty_queue :
    (∀ r : HttpResult, fetchFails r = true →
      get_next_job r = none
      ∧ get_next_job r = get_next_job (HttpResult.resp 204 none))
    ∧ (∀ (m : Nat) (g : Nat → HttpResult),
        (∀ n, fetchFails (g n) = true) →
        mainLoopRun g (m + 1) m 0 0 0 = some (m + 1, m)) := by
  have hbase : ∀ r : HttpResult, fetchFails r = true →
      get_next_job r = none := by
    intro r hr
    cases r with
    | netError => rfl
    | resp status body =>
      by_cases h4 : 400 ≤ status
      · simp [get_next_job, h4]
      · by_cases h204 : status = 204
        · simp [get_next_job, h4, h204]
        · have hb : body = none := by
            simp [fetchFails, h4, h204] at hr
            exact hr
          simp [get_next_job, h4, h204, hb]
  refine ⟨fun r hr => ⟨hbase r hr, by rw [hbase r hr]; rfl⟩, ?_⟩
  intro m g hg
  have hnone : ∀ n, get_next_job (g n) = none := fun n => hbase (g n) (hg n)
  have h := mainLoopRun_all_empty g hnone (m + 1) m 0 0 0
    (Nat.zero_le m) (by omega)
  simpa using h

/-- Witness for C10: a raised network error yields the same `None` as a
204. -/
theorem fetch_errors_indistinguishable_from_empty_queue_witness :
    get_next_job HttpResult.netError = none :=
  (fetch_errors_indistinguishable_from_empty_queue.1
    HttpResult.netError rfl).1

/-! ## Heartbeat failure tolerance (C8) -/

/-- C8: over any finite schedule of liveness-call outcomes (the stop
event being observed set only after the schedule), the heartbeat loop
makes exactly one call per iteration — a failure never terminates it,
only cancellation does — and every failing call (a raised exception,
including the `raise_for_status` exception on statuses >= 400, or a
returned status other than 200) is logged, while a 200 logs nothing. -/
theorem heartbeat_failures_logged_loop_continues (sched : List HbCall) :
    (heartbeatLoopRun sched).1 = sched.length
    ∧ (∀ c ∈ sched, c ≠ HbCall.status 200 → hbIterationLogs c ≠ [])
    ∧ hbIterationLogs (HbCall.status 200) = [] := by
  refine ⟨?_, ?_, rfl⟩
  · induction sched with
    | nil => rfl
    | cons c rest ih => simp [heartbeatLoopRun, ih]
  · intro c _ hc
    cases c with
    | netError => simp [hbIterationLogs, hbRequestResult]
    | status code =>
      by_cases h4 : 400 ≤ code
      · simp [hbIterationLogs, hbRequestResult, h4]
      · have hne : code ≠ 200 := fun he => hc (by rw [he])
        simp [hbIterationLogs, hbRequestResult, h4, hne]

/-- Witness for C8: on the schedule `[netError, status 500, status 201,
status 200]` the loop still makes all four calls, and the network-error
call is logged. -/
theorem heartbeat_failures_logged_loop_continues_witness :
    (heartbeatLoopRun
      [HbCall.netError, HbCall.status 500, HbCall.status 201,
       HbCall.status 200]).1 = 4
    ∧ hbIterationLogs HbCall.netError ≠ [] :=
  ⟨(heartbeat_failures_logged_loop_continues
      [HbCall.netError, HbCall.status 500, HbCall.status 201,
       HbCall.status 200]).1,
   (heartbeat_failures_logged_loop_continues [HbCall.netError]).2.1
      HbCall.netError (List.mem_singleton.mpr rfl) (by decide)⟩

/-! ## End-to-end enrichment and per-job configuration (C1, C2)

`process_job` (src/services/jobs.py lines 88-109) builds the call to
`process_csv_stream_to_mongo` passing only the stream, the Mongo
connection data, `batch_size` and `block_size_bytes`; the job's
`client_id`, `period` and `config` never reach the loader, so the
enrichment block and the per-job configuration resolution both run on
their `None` defaults. -/

/-- The job of the spec's enrichment example: `client_id = 7`,
`period = "202401"`. -/
def c1Job : JobResponse :=
  { id := "job-1"
    file_path := "https://acct.blob.core.windows.net/container/data.csv"
    collection_name := "col"
    client_id := 7
    period := "202401"
    config := {} }

def defaultSettings : Settings := {}

/-- C1 (evaluated at the failing input): in the end-to-end call made by
`process_job` for the example job, `client_id` and `period` arrive as
`None`, so the inserted documents are exactly the parsed rows — no `ctr`
or `crx` field is added — even though the enrichment block would have
produced the documents the claim describes had the job's fields been
forwarded. -/
theorem processJob_enrichment_never_applied :
    (processJobCsvArgs c1Job defaultSettings).client_id = none
    ∧ (processJobCsvArgs c1Job defaultSettings).period = none
    ∧ enrichDoc (processJobCsvArgs c1Job defaultSettings).client_id
        (processJobCsvArgs c1Job defaultSettings).period
        [("a", DocValue.str "1"), ("b", DocValue.str "2")]
      = [("a", DocValue.str "1"), ("b", DocValue.str "2")]
    ∧ enrichDoc (some c1Job.client_id) (some c1Job.period)
        [("a", DocValue.str "1"), ("b", DocValue.str "2")]
      = [("a", DocValue.str "1"), ("b", DocValue.str "2"),
         ("ctr", DocValue.int 7), ("crx", DocValue.int 202401)] := by
  refine ⟨rfl, rfl, rfl, ?_⟩
  decide

/-- A job whose configuration sets every parsing-relevant field away from
the worker defaults. -/
def c2Job : JobResponse :=
  { id := "job-2"
    file_path := "https://acct.blob.core.windows.net/container/data2.csv"
    collection_name := "col2"
    client_id := 9
    period := "202402"
    config :=
      { delimitador := some ";"
        codec := some "latin-1"
        skiprows := some 2
        campos := some ["x", "y"]
        reglas := some [("x", "int64")]
        merror := some "ignore" } }

/-- C2 (evaluated at the failing input): `process_job` forwards no
`config`, so for a job that supplies a delimiter, codec, skiprows,
campos and reglas of its own, the parser still resolves every parameter
from the worker-wide defaults (`","`, `"utf-8"`, `0`, no column names,
`"strict"`), not from the job's configuration — though resolving the
job's own config would give different values. -/
theorem processJob_config_never_applied :
    (processJobCsvArgs c2Job defaultSettings).config = none
    ∧ resolvedDelimiter (processJobCsvArgs c2Job defaultSettings).config = ","
    ∧ resolvedEncoding (processJobCsvArgs c2Job defaultSettings).config
        = "utf-8"
    ∧ resolvedSkipRows (processJobCsvArgs c2Job defaultSettings).config = 0
    ∧ resolvedColumnNames (processJobCsvArgs c2Job defaultSettings).config
        = none
    ∧ resolvedEncodingErrors (processJobCsvArgs c2Job defaultSettings).config
        = "strict"
    ∧ c2Job.config.delimitador = some ";"
    ∧ resolvedDelimiter (some c2Job.config) = ";"
    ∧ resolvedDelimiter (processJobCsvArgs c2Job defaultSettings).config
        ≠ resolvedDelimiter (some c2Job.config)
    ∧ resolvedSkipRows (some c2Job.config) = 2
    ∧ resolvedColumnNames (some c2Job.config) = some ["x", "y"] := by
  decide

/-- Witness for C4 (amended) on the success path: the completion report
precedes the stop-event signal in the trace. -/
theorem completion_reported_before_heartbeat_stop_witness :
    (main_job_trace false).indexOf (JobEvent.markComplete false)
      < (main_job_trace false).indexOf JobEvent.setStopEvent :=
  (completion_reported_before_heartbeat_stop false).2.2.2.1
